import Mathlib

/-!
Verification development for the receive-side video frame jitter buffer and
decode dispatch core of the WebRTC repository snapshot.

Two groups of definitions:

* The frame buffer (`FB`, `insertFrame`, `nextFrame`, `runOps`).  The frame
  buffer implementation itself is not part of the source tree — only its unit
  test `modules/video_coding/frame_buffer2_unittest.cc` is — so these
  definitions are modelled from the specification (spec.md §3, §4.2, §4.3),
  with the ambiguities of the spec resolved so as to agree with the observable
  behaviour pinned down by the in-tree unit tests.

* The decode dispatcher (`genericDecode`, `vcmDecoded`), translated directly
  from `modules/video_coding/generic_decoder.cc`, which is in the source tree.

* A small timing-estimator model (`Timing`), modelled from the specification
  (spec.md §4.1), since `timing.cc` / `jitter_estimator.cc` are not in the
  source tree.
-/

namespace Webrtc

/-! ### Wrap-aware ordering (spec.md §9 "Wrap-aware comparison")

`picture_id` is a `u16`, `rtp_timestamp` a `u32`; both are compared with a
modular "ahead-of" ordering with window = half the type's range. -/

/-- Forward modular distance from `a` to `b` in `u16` arithmetic. -/
def fwdDiff16 (a b : Nat) : Nat := ((b % 65536) + 65536 - (a % 65536)) % 65536

/-- Forward modular distance from `a` to `b` in `u32` arithmetic. -/
def fwdDiff32 (a b : Nat) : Nat :=
  ((b % 4294967296) + 4294967296 - (a % 4294967296)) % 4294967296

/-- `a` is wrap-aware strictly ahead of `b` as a 16-bit picture id. -/
def aheadOf16 (a b : Nat) : Bool :=
  decide (0 < fwdDiff16 b a) && decide (fwdDiff16 b a < 32768)

/-- `a` is wrap-aware strictly ahead of `b` as a 32-bit RTP timestamp. -/
def aheadOf32 (a b : Nat) : Bool :=
  decide (0 < fwdDiff32 b a) && decide (fwdDiff32 b a < 2147483648)

/-! ### Data model (spec.md §3 "Frame") -/

/-- An encoded frame as inserted by the producer.  Fields not consumed by the
frame-buffer logic (rotation, color space, …) are omitted.  Per the source
tree's `EncodedFrame`, a frame is a keyframe iff it has no references
(`refs = []`). -/
structure Frame where
  pid : Nat
  sl : Nat
  ts : Nat
  refs : List Nat
  interLayer : Bool
  lastSpatial : Bool
  size : Nat
deriving DecidableEq

/-- A frame-store entry: the frame plus its continuity flag
(spec.md §3 "Frame Store entry"). -/
structure Entry where
  f : Frame
  cont : Bool
deriving DecidableEq

/-- Frame-buffer state.  `decodedPids` is the list of picture ids already
popped for decoding (in pop order); `lastDecoded` is the picture id and RTP
timestamp of the most recently popped superframe; `lastCont` is the running
"last continuous picture id" returned by `Insert`; `renderLast` is the state
of the render-time unwrapper (last RTP timestamp and last render time in ms),
which translates RTP deltas to milliseconds at 90 kHz (spec.md §4.1
`RenderTime`). -/
structure FB where
  store : List Entry
  decodedPids : List Nat
  lastDecoded : Option (Nat × Nat)
  lastCont : Option Nat
  renderLast : Option (Nat × Int)
deriving DecidableEq

/-- The empty frame buffer. -/
def initFB : FB := ⟨[], [], none, none, none⟩

/-- Number of distinct picture ids held by the store (spec.md I4). -/
def distinctPids (store : List Entry) : Nat :=
  (store.map (fun e => e.f.pid)).toFinset.card

/-- Is some entry with this picture id present (any spatial layer)? -/
def pidPresent (store : List Entry) (p : Nat) : Bool :=
  store.any (fun e => e.f.pid == p)

/-- Is the exact `(picture_id, spatial_layer)` slot occupied (spec.md I1)? -/
def keyPresent (store : List Entry) (p sl : Nat) : Bool :=
  store.any (fun e => e.f.pid == p && e.f.sl == sl)

/-- A reference is fulfilled for continuity if the referenced picture was
already popped for decoding, or an entry for it at the same spatial layer is
present and itself continuous (spec.md §4.2; recursive continuity as exercised
by test `LastContinuousFrameTwoLayers`). -/
def refOk (store : List Entry) (decoded : List Nat) (sl r : Nat) : Bool :=
  decoded.elem r || store.any (fun e => e.f.pid == r && e.f.sl == sl && e.cont)

/-- Continuity condition for a frame against a store: all references
fulfilled, and, if inter-layer predicted, the same-pid lower spatial layer
present and continuous (spec.md I2). -/
def contCond (store : List Entry) (decoded : List Nat) (f : Frame) : Bool :=
  f.refs.all (refOk store decoded f.sl) &&
  (!f.interLayer ||
    store.any (fun e => e.f.pid == f.pid && e.f.sl + 1 == f.sl && e.cont))

/-- One propagation pass: every non-continuous entry rechecks its continuity
condition (spec.md §4.2 "any that transition to continuous are cascaded"). -/
def cascadeOnce (decoded : List Nat) (store : List Entry) : List Entry :=
  store.map (fun e => if e.cont then e else ⟨e.f, contCond store decoded e.f⟩)

/-- Number of continuous entries, used to detect that a cascade pass made
progress. -/
def contCount (store : List Entry) : Nat := (store.filter (fun e => e.cont)).length

/-- Iterate continuity propagation until a pass changes nothing (the fuel
`store.length` suffices since each productive pass flips at least one flag). -/
def cascade (decoded : List Nat) : Nat → List Entry → List Entry
  | 0, store => store
  | n + 1, store =>
    let store2 := cascadeOnce decoded store
    if contCount store2 == contCount store then store else cascade decoded n store2

/-- Wrap-aware maximum used for the running last-continuous picture id. -/
def wmax (a : Option Nat) (p : Nat) : Option Nat :=
  match a with
  | none => some p
  | some q => if aheadOf16 p q then some p else some q

/-- Fold the continuous entries of the store into the running
last-continuous picture id. -/
def updLastCont (store : List Entry) (acc : Option Nat) : Option Nat :=
  store.foldl (fun a e => if e.cont then wmax a e.f.pid else a) acc

/-- `Insert` returns the last-continuous picture id, or −1 when no frame has
become continuous (spec.md §6: "returns the last-continuous `picture_id`
reachable from the insert or −1"). -/
def lastContInt (o : Option Nat) : Int :=
  match o with
  | none => -1
  | some p => (p : Int)

/-- Reference validity (spec.md I6): every reference must be wrap-aware
strictly behind the frame's own picture id. -/
def validRefs (f : Frame) : Bool := f.refs.all (fun r => aheadOf16 f.pid r)

/-- Clearing the store (keyframe re-seed, spec.md I4): entries, decode
history and the last-continuous id are dropped.  The render-time unwrapper is
external to the store and keeps its state. -/
def clearFB (st : FB) : FB :=
  { st with store := [], decodedPids := [], lastDecoded := none, lastCont := none }

/-- Core insertion, after validation: duplicate `(picture_id, spatial_layer)`
inserts are a no-op returning the current last-continuous id (spec.md I1);
otherwise the entry is added, continuity is computed by scanning existing
entries and cascaded to dependants, and the updated last-continuous id is
returned (spec.md §4.2). -/
def storeInsert (st : FB) (f : Frame) : FB × Int :=
  if keyPresent st.store f.pid f.sl then (st, lastContInt st.lastCont)
  else
    let e : Entry := ⟨f, contCond st.store st.decodedPids f⟩
    let store1 := st.store ++ [e]
    let store2 := if e.cont then cascade st.decodedPids store1.length store1 else store1
    let lc := updLastCont store2 st.lastCont
    ({ st with store := store2, lastCont := lc }, lastContInt lc)

/-- Capacity rule (spec.md I4): a frame opening a new picture id while the
store already holds 600 distinct picture ids is rejected with −1 unless it is
a keyframe, in which case the store is cleared first. -/
def insertCapacity (st : FB) (f : Frame) : FB × Int :=
  if 600 ≤ distinctPids st.store ∧ pidPresent st.store f.pid = false then
    if f.refs.isEmpty then storeInsert (clearFB st) f else (st, -1)
  else storeInsert st f

/-- `FrameBuffer::InsertFrame`, modelled from the spec (spec.md §4.2):
validate references (I6, reject with −1), validate against the last decoded
frame (I5: a frame with a wrap-older picture id is accepted only with a
strictly newer RTP timestamp, in which case the store is re-seeded from it —
the in-tree test `PictureIdJumpBack` pins that the store and decode history
are cleared, since the insert returns the jumped-back picture id itself, and
the frame that was continuous before the jump is no longer delivered; a frame
with a wrap-older RTP timestamp is rejected; rejections return the current
last-continuous id, as pinned by test `DuplicateFrames`), then apply the
capacity rule and insert. -/
def insertFrame (st : FB) (f : Frame) : FB × Int :=
  if validRefs f = false then (st, -1)
  else
    match st.lastDecoded with
    | some pt =>
      if aheadOf16 f.pid pt.1 = false then
        if aheadOf32 f.ts pt.2 then insertCapacity (clearFB st) f
        else (st, lastContInt st.lastCont)
      else if aheadOf32 pt.2 f.ts then (st, lastContInt st.lastCont)
      else insertCapacity st f
    | none => insertCapacity st f

/-! ### Assembly and scheduling (spec.md §4.3) -/

/-- All store entries of one picture id (the spatial layers of one
superframe). -/
def layersOf (store : List Entry) (p : Nat) : List Entry :=
  store.filter (fun e => e.f.pid == p)

/-- A superframe is deliverable when a last-spatial-layer entry is present and
every layer's references have already been popped for decoding, inter-layer
predicted layers having their lower layer in the same superframe
(spec.md §4.2 ordering rule, §4.3 step 1). -/
def readyPid (st : FB) (p : Nat) : Bool :=
  let ls := layersOf st.store p
  ls.any (fun e => e.f.lastSpatial) &&
  ls.all (fun e =>
    e.f.refs.all (fun r => st.decodedPids.elem r) &&
    (!e.f.interLayer || ls.any (fun e2 => e2.f.sl + 1 == e.f.sl)))

/-- RTP timestamp of a stored superframe (its layers share one timestamp). -/
def pidTs (st : FB) (p : Nat) : Nat :=
  match (layersOf st.store p).head? with
  | some e => e.f.ts
  | none => 0

/-- A superframe older (wrap-aware) than the last decoded RTP timestamp is
never delivered (spec.md I5 / test `DontDecodeOlderTimestamp`). -/
def notStale (st : FB) (p : Nat) : Bool :=
  match st.lastDecoded with
  | none => true
  | some pt => aheadOf32 (pidTs st p) pt.2 || pidTs st p == pt.2

/-- A stored superframe is a keyframe when none of its layers has
references. -/
def isKeySuper (st : FB) (p : Nat) : Bool :=
  (layersOf st.store p).all (fun e => e.f.refs.isEmpty)

/-- Wrap-aware minimum, for selecting the earliest decodable picture id. -/
def wmin (a : Option Nat) (p : Nat) : Option Nat :=
  match a with
  | none => some p
  | some q => if aheadOf16 q p then some p else some q

/-- Earliest (wrap-aware) picture id of a candidate list. -/
def pickMin (l : List Nat) : Option Nat := l.foldl wmin none

/-- The delivered superframe: spatial layers in ascending spatial order, the
union of the layers' references, and the render time assigned at delivery. -/
structure Superframe where
  pid : Nat
  ts : Nat
  layers : List Frame
  refsAll : List Nat
  renderMs : Int
deriving DecidableEq

/-- Insert a frame into a list sorted by ascending spatial layer. -/
def sortedInsertSl (e : Frame) : List Frame → List Frame
  | [] => [e]
  | x :: xs => if e.sl ≤ x.sl then e :: x :: xs else x :: sortedInsertSl e xs

/-- Sort spatial layers ascending (spec.md §4.3 step 5: "concatenate their
payloads in ascending spatial order"). -/
def sortBySl (l : List Frame) : List Frame := l.foldr sortedInsertSl []

/-- Render-time unwrapper (spec.md §4.1 `RenderTime`): the first delivery
anchors the render clock; later deliveries translate the wrap-aware RTP delta
to milliseconds at 90 kHz. -/
def renderUpd (r : Option (Nat × Int)) (ts : Nat) : Nat × Int :=
  match r with
  | none => (ts, 0)
  | some lt =>
    if aheadOf32 ts lt.1 then (ts, lt.2 + ((fwdDiff32 lt.1 ts) / 90 : Nat))
    else (ts, lt.2 - ((fwdDiff32 ts lt.1) / 90 : Nat))

/-- Maximum spatial index present in a delivered superframe. -/
def Superframe.spatialIndex (sf : Superframe) : Nat :=
  (sf.layers.map (fun l => l.sl)).foldl max 0

/-- Per-layer payload size of a delivered superframe. -/
def Superframe.layerSize (sf : Superframe) (i : Nat) : Option Nat :=
  (sf.layers.find? (fun l => l.sl == i)).map (fun l => l.size)

/-- Total payload size of a delivered superframe. -/
def Superframe.totalSize (sf : Superframe) : Nat :=
  (sf.layers.map (fun l => l.size)).sum

/-- `FrameBuffer::NextFrame`, modelled from the spec (spec.md §4.3): select
the earliest (wrap-aware picture id, as pinned by the in-tree tests)
deliverable superframe that is not older than the last decoded timestamp;
under `keyframe_required`, non-keyframe deliverable superframes are dropped
and only keyframes may be selected (§4.3 step 2); all spatial layers of the
chosen picture id are gathered, removed from the store, marked popped and
delivered together (§4.3 steps 5, 7). -/
def nextFrame (keyframeRequired : Bool) (st : FB) : FB × Option Superframe :=
  let allPids := (st.store.map (fun e => e.f.pid)).dedup
  let decodable := allPids.filter (fun p => readyPid st p && notStale st p)
  let store0 :=
    if keyframeRequired then
      st.store.filter (fun e => !(decodable.elem e.f.pid && !(isKeySuper st e.f.pid)))
    else st.store
  let cands :=
    if keyframeRequired then decodable.filter (fun p => isKeySuper st p) else decodable
  match pickMin cands with
  | none => ({ st with store := store0 }, none)
  | some p =>
    let ls := layersOf st.store p
    let ts := pidTs st p
    let r := renderUpd st.renderLast ts
    let sf : Superframe :=
      ⟨p, ts, sortBySl (ls.map (fun e => e.f)), (ls.map (fun e => e.f.refs)).flatten, r.2⟩
    ({ st with store := store0.filter (fun e => !(e.f.pid == p)),
               decodedPids := st.decodedPids ++ [p],
               lastDecoded := some (p, ts),
               renderLast := some r }, some sf)

/-! ### Operation traces -/

/-- Producer/consumer operations against the frame buffer. -/
inductive Op where
  | ins (f : Frame)
  | next (kf : Bool)

/-- Run a trace of operations, collecting the superframes returned by
`nextFrame` in delivery order. -/
def runOps : FB → List Op → FB × List Superframe
  | st, [] => (st, [])
  | st, Op.ins f :: ops => runOps (insertFrame st f).1 ops
  | st, Op.next kf :: ops =>
    match nextFrame kf st with
    | (st2, none) => runOps st2 ops
    | (st2, some sf) =>
      let r := runOps st2 ops
      (r.1, sf :: r.2)

/-- Picture ids of frames inserted by a trace. -/
def insPids : List Op → List Nat
  | [] => []
  | Op.ins f :: ops => f.pid :: insPids ops
  | Op.next _ :: ops => insPids ops

/-- "Every reference of every delivered superframe was delivered by a prior
`NextFrame` call": `R` accumulates the picture ids delivered so far. -/
def RefClosedFrom (R : List Nat) : List Superframe → Prop
  | [] => True
  | sf :: rest => (∀ r ∈ sf.refsAll, r ∈ R) ∧ RefClosedFrom (R ++ [sf.pid]) rest

/-! ### Timing estimator (spec.md §4.1)

Modelled from the spec: `timing.cc` and `jitter_estimator.cc` are not part of
the source tree.  The spec gives no formula for the jitter estimate itself;
the model keeps an abstract estimate updated from inter-arrival deltas of
non-retransmitted frames only, and implements the RTT policy of
`UpdateRtt`: under protection mode `Nack` the effective jitter target is
`max(jitter_estimate, rtt + decode_time + render_delay)` once at least three
retransmitted frames have been observed; under `NackFec` the RTT does not
inflate the jitter target. -/

/-- Protection mode (spec.md §4.1 `SetProtectionMode`). -/
inductive ProtMode where
  | nack
  | nackFec
deriving DecidableEq

/-- Timing-estimator state.  `renderDelayMs` is the configured render delay
(a positive constant; the usual default is 10 ms). -/
structure Timing where
  mode : ProtMode
  rttMs : Int
  retxCount : Nat
  jitterMs : Int
  lastArrivalMs : Option Int
  decodeEstMs : Int
  renderDelayMs : Int
deriving DecidableEq

/-- Initial timing-estimator state. -/
def initTiming : Timing := ⟨ProtMode.nackFec, 0, 0, 0, none, 0, 10⟩

/-- Modelled from the spec: the jitter estimator's update from one
inter-arrival delta (spec.md §4.1 gives no formula; an exponential moving
average of the delta is used). -/
def jitterStep (old delta : Int) : Int := (15 * old + delta) / 16

/-- `OnFrameArrived` (spec.md §4.1): retransmission-delayed arrivals are
excluded from the jitter estimate but counted for the RTT-based padding
policy. -/
def onFrameArrived (t : Timing) (nowMs : Int) (retx : Bool) : Timing :=
  if retx then { t with retxCount := t.retxCount + 1 }
  else
    match t.lastArrivalMs with
    | none => { t with lastArrivalMs := some nowMs }
    | some prev =>
      { t with lastArrivalMs := some nowMs, jitterMs := jitterStep t.jitterMs (nowMs - prev) }

/-- `UpdateRtt` (spec.md §4.1). -/
def updateRtt (t : Timing) (r : Int) : Timing := { t with rttMs := r }

/-- `SetProtectionMode` (spec.md §4.1). -/
def setProtectionMode (t : Timing) (m : ProtMode) : Timing := { t with mode := m }

/-- The jitter-buffer delay reported by `GetTimings` (spec.md §4.1
`UpdateRtt` policy). -/
def jitterTarget (t : Timing) : Int :=
  match t.mode with
  | ProtMode.nack =>
    if 3 ≤ t.retxCount then max t.jitterMs (t.rttMs + t.decodeEstMs + t.renderDelayMs)
    else t.jitterMs
  | ProtMode.nackFec => t.jitterMs

/-- The scenario of tests `ProtectionModeNack` / `ProtectionModeNackFEC`
(spec.md S6): RTT set to 200 ms, three retransmission-delayed frames followed
by one normal frame, 100 ms apart. -/
def protScenario (m : ProtMode) : Timing :=
  let t0 := setProtectionMode (updateRtt initTiming 200) m
  let t1 := onFrameArrived t0 0 true
  let t2 := onFrameArrived t1 100 true
  let t3 := onFrameArrived t2 200 true
  onFrameArrived t3 300 false

/-! ### Decode dispatcher (`modules/video_coding/generic_decoder.cc`)

Translated from the source.  `VCMFrameInformation` slots are kept in a
timestamp-keyed map (`TimestampMap`, whose implementation is not in the
source tree: modelled from the spec as a bounded ring where the oldest entry
is dropped on overflow, and lookups pop the first entry with the given
timestamp). -/

/-- `WEBRTC_VIDEO_CODEC_OK` (video_error_codes.h). -/
def codecOK : Int := 0

/-- `WEBRTC_VIDEO_CODEC_NO_OUTPUT` (video_error_codes.h). -/
def codecNoOutput : Int := 1

/-- `kDecoderFrameMemoryLength`: capacity of the FrameInfo ring.  Modelled
from the spec ("a small ring"); the exact value does not matter for the
properties proved here. -/
def kDecoderFrameMemoryLength : Nat := 10

/-- `VideoSendTiming::kInvalid` flag value. -/
def timingInvalid : Nat := 255

/-- `VideoSendTiming`: sender-side timing timestamps carried with a frame. -/
structure VideoTiming where
  flags : Nat
  encodeStartMs : Int
  encodeFinishMs : Int
  packetizationFinishMs : Int
  pacerExitMs : Int
  networkTimestampMs : Int
  network2TimestampMs : Int
  receiveStartMs : Int
  receiveFinishMs : Int
deriving DecidableEq

/-- `VCMFrameInformation`: the FrameInfo slot stored at `Decode` time and
reconciled with the decoder callback by RTP timestamp. -/
structure SlotInfo where
  decodeStartTimeMs : Int
  renderTimeMs : Int
  rotation : Nat
  timing : VideoTiming
  ntpTimeMs : Int
  colorSpace : Option Nat
  packetInfos : List Nat
  contentType : Nat
deriving DecidableEq

/-- The timestamp-keyed slot map (`_timestampMap`). -/
abbrev TsMap : Type := List (Nat × SlotInfo)

/-- Add a slot under a timestamp; on overflow the oldest entry is dropped
(spec.md §5 "on overflow, the oldest slot is overwritten"). -/
def tsMapAdd (m : TsMap) (ts : Nat) (fi : SlotInfo) : TsMap :=
  let m1 := if kDecoderFrameMemoryLength ≤ m.length then m.tail else m
  m1 ++ [(ts, fi)]

/-- Pop the first slot stored under a timestamp, returning it (if any) and
the map without it. -/
def tsMapPop : TsMap → Nat → Option SlotInfo × TsMap
  | [], _ => (none, [])
  | x :: xs, ts =>
    if x.1 == ts then (some x.2, xs)
    else
      let r := tsMapPop xs ts
      (r.1, x :: r.2)

/-- Non-destructive lookup of a slot by timestamp. -/
def tsMapLookup (m : TsMap) (ts : Nat) : Option SlotInfo :=
  (m.find? (fun x => x.1 == ts)).map (fun x => x.2)

/-- `VCMEncodedFrame` as consumed by `VCMGenericDecoder::Decode`. -/
structure EncFrame where
  timestamp : Nat
  renderTimeMs : Int
  rotation : Nat
  videoTiming : VideoTiming
  ntpTimeMs : Int
  colorSpace : Option Nat
  packetInfos : List Nat
  isKey : Bool
  contentType : Nat
deriving DecidableEq

/-- State of `VCMDecodedFrameCallback`: the timestamp map and the cached
NTP offset. -/
structure CBState where
  map : TsMap
  ntpOffsetMs : Int
deriving DecidableEq

/-- State of `VCMGenericDecoder`: its callback, the ring index and the cached
last-keyframe content type. -/
structure GDState where
  cb : CBState
  nextFrameInfoIdx : Nat
  lastKeyframeContentType : Nat
deriving DecidableEq

/-- `VCMGenericDecoder::Decode` (generic_decoder.cc lines 201–243).  The
decoder call itself is external; its return code is the `decoderRet`
parameter.  The slot is filled from the frame's metadata (content type taken
from the frame for keyframes, from the cached last-keyframe content type for
delta frames), mapped under the frame's RTP timestamp, and popped again if
the decoder reports an error (`< 0`) or `WEBRTC_VIDEO_CODEC_NO_OUTPUT`; the
decoder's return code is passed through as the function's result. -/
def genericDecode (st : GDState) (frame : EncFrame) (nowMs : Int) (decoderRet : Int) :
    GDState × Int :=
  let ct := if frame.isKey then frame.contentType else st.lastKeyframeContentType
  let fi : SlotInfo :=
    ⟨nowMs, frame.renderTimeMs, frame.rotation, frame.videoTiming, frame.ntpTimeMs,
      frame.colorSpace, frame.packetInfos, ct⟩
  let lastKey := if frame.isKey then frame.contentType else st.lastKeyframeContentType
  let map1 := tsMapAdd st.cb.map frame.timestamp fi
  let idx := (st.nextFrameInfoIdx + 1) % kDecoderFrameMemoryLength
  let st1 : GDState := ⟨⟨map1, st.cb.ntpOffsetMs⟩, idx, lastKey⟩
  if decoderRet < codecOK then
    (⟨⟨(tsMapPop map1 frame.timestamp).2, st1.cb.ntpOffsetMs⟩, idx, lastKey⟩, decoderRet)
  else if decoderRet == codecNoOutput then
    (⟨⟨(tsMapPop map1 frame.timestamp).2, st1.cb.ntpOffsetMs⟩, idx, lastKey⟩, decoderRet)
  else (st1, decoderRet)

/-- A decoded `VideoFrame` as seen by `VCMDecodedFrameCallback::Decoded`. -/
structure VideoFrameD where
  timestamp : Nat
  ntpTimeMs : Int
  colorSpace : Option Nat
  packetInfos : List Nat
  rotation : Nat
  timestampUs : Int
deriving DecidableEq

/-- `TimingFrameInfo` as filled by `VCMDecodedFrameCallback::Decoded`. -/
structure TimingFrameInfoR where
  captureTimeMs : Int
  encodeStartMs : Int
  encodeFinishMs : Int
  packetizationFinishMs : Int
  pacerExitMs : Int
  networkTimestampMs : Int
  network2TimestampMs : Int
  flags : Nat
  decodeStartMs : Int
  decodeFinishMs : Int
  renderTimeMs : Int
  rtpTimestamp : Nat
  receiveStartMs : Int
  receiveFinishMs : Int
deriving DecidableEq

/-- Result of one `VCMDecodedFrameCallback::Decoded` invocation: the new
callback state, the (possibly annotated) frame, and the calls made to the
timing estimator (`StopDecodeTimer` with decode duration and current time,
`SetTimingFrameInfo`) and to the user receive callback (`FrameToRender` with
qp, decode time and content type). -/
structure DecodedResult where
  st : CBState
  frame : VideoFrameD
  stopDecodeTimer : Option (Int × Int)
  setTimingFrameInfo : Option TimingFrameInfoR
  frameToRender : Option (Option Nat × Int × Nat)
deriving DecidableEq

/-- `VCMDecodedFrameCallback::Decoded` (generic_decoder.cc lines 63–151).
The slot is popped by RTP timestamp; if none is found a warning is logged and
the output is dropped (no annotation, no timing update, no user callback).
Otherwise the frame is annotated from the slot, the decode time defaults to
`now − decodeStartTimeMs`, the timing estimator is updated, a
`TimingFrameInfo` is reported (with sender-side timestamps converted by the
NTP offset, and shifted to be negative when the sender's NTP was not
estimable), `timestamp_us` is set to `render_time_ms × 1000`, and the frame
is delivered to the user receive callback. -/
def vcmDecoded (st : CBState) (img : VideoFrameD) (decodeTimeMs : Option Int)
    (qp : Option Nat) (nowMs : Int) : DecodedResult :=
  let pr := tsMapPop st.map img.timestamp
  match pr.1 with
  | none => ⟨⟨pr.2, st.ntpOffsetMs⟩, img, none, none, none⟩
  | some fi =>
    let img1 := { img with ntpTimeMs := fi.ntpTimeMs }
    let img2 :=
      match fi.colorSpace with
      | some c => { img1 with colorSpace := some c }
      | none => img1
    let img3 := { img2 with packetInfos := fi.packetInfos, rotation := fi.rotation }
    let dt :=
      match decodeTimeMs with
      | some d => d
      | none => nowMs - fi.decodeStartTimeMs
    let tfi :=
      if fi.timing.flags ≠ timingInvalid then
        let captureTimeMs := img3.ntpTimeMs - st.ntpOffsetMs
        let encodeStart := fi.timing.encodeStartMs - st.ntpOffsetMs
        let encodeFinish := fi.timing.encodeFinishMs - st.ntpOffsetMs
        let packetizationFinish := fi.timing.packetizationFinishMs - st.ntpOffsetMs
        let pacerExit := fi.timing.pacerExitMs - st.ntpOffsetMs
        let networkTs := fi.timing.networkTimestampMs - st.ntpOffsetMs
        let network2Ts := fi.timing.network2TimestampMs - st.ntpOffsetMs
        let senderDelta :=
          if (img3.ntpTimeMs : Int) < 0 then
            max captureTimeMs (max encodeStart (max encodeFinish
              (max packetizationFinish (max pacerExit (max networkTs network2Ts))))) + 1
          else 0
        ({ captureTimeMs := captureTimeMs - senderDelta,
           encodeStartMs := encodeStart - senderDelta,
           encodeFinishMs := encodeFinish - senderDelta,
           packetizationFinishMs := packetizationFinish - senderDelta,
           pacerExitMs := pacerExit - senderDelta,
           networkTimestampMs := networkTs - senderDelta,
           network2TimestampMs := network2Ts - senderDelta,
           flags := fi.timing.flags,
           decodeStartMs := fi.decodeStartTimeMs,
           decodeFinishMs := nowMs,
           renderTimeMs := fi.renderTimeMs,
           rtpTimestamp := img.timestamp,
           receiveStartMs := fi.timing.receiveStartMs,
           receiveFinishMs := fi.timing.receiveFinishMs } : TimingFrameInfoR)
      else
        ({ captureTimeMs := -1, encodeStartMs := -1, encodeFinishMs := -1,
           packetizationFinishMs := -1, pacerExitMs := -1,
           networkTimestampMs := -1, network2TimestampMs := -1,
           flags := fi.timing.flags,
           decodeStartMs := fi.decodeStartTimeMs,
           decodeFinishMs := nowMs,
           renderTimeMs := fi.renderTimeMs,
           rtpTimestamp := img.timestamp,
           receiveStartMs := fi.timing.receiveStartMs,
           receiveFinishMs := fi.timing.receiveFinishMs } : TimingFrameInfoR)
    let img4 := { img3 with timestampUs := fi.renderTimeMs * 1000 }
    ⟨⟨pr.2, st.ntpOffsetMs⟩, img4, some (dt, nowMs), some tfi, some (qp, dt, fi.contentType)⟩

/-! ### Concrete inputs used by the claim witnesses and counterexamples -/

/-- Shorthand frame constructor. -/
def mkF (pid sl ts : Nat) (refs : List Nat) (il last : Bool) (sz : Nat) : Frame :=
  ⟨pid, sl, ts, refs, il, last, sz⟩

/-- A store holding 600 distinct picture ids 1…600, each delta frame chained
to its predecessor (the S3 scenario of spec.md §8). -/
def fullStore : List Entry :=
  (List.range 600).map (fun i => ⟨mkF (i + 1) 0 ((i + 1) * 900) [i] false true 10, false⟩)

/-- A full frame buffer with no decode history (the state reached by the S3
scenario after 600 rejected-return inserts). -/
def fullState : FB := ⟨fullStore, [], none, none, none⟩

/-- Picture ids of the entries of a store. -/
def storePids (store : List Entry) : List Nat := store.map (fun e => e.f.pid)

/-- Layer 0 of the two-layer superframe of scenario S4
(spec.md §8 "CombineFramesToSuperframe"). -/
def s4f0 (pid ts S : Nat) : Frame := mkF pid 0 ts [] false false S

/-- Layer 1 of the two-layer superframe of scenario S4: twice the size,
inter-layer predicted, last spatial layer. -/
def s4f1 (pid ts S : Nat) : Frame := mkF pid 1 ts [] true true (2 * S)

/-- The trace of test `PictureIdJumpBack`, reduced to its essentials: a
keyframe with picture id 2 is delivered, then a keyframe with the wrap-aware
older picture id 1 but a newer RTP timestamp is inserted and delivered. -/
def jumpBackOps : List Op :=
  [Op.ins (mkF 2 0 90 [] false true 10), Op.next false,
   Op.ins (mkF 1 0 270 [] false true 10), Op.next false]

/-- The trace of test `NoContinuousFrame` continued as in
`LastContinuousFrameSingleLayer`: a delta frame referencing a missing frame
is inserted (returning −1), then its reference arrives and both frames are
delivered. -/
def lateRefOps : List Op :=
  [Op.ins (mkF 1 0 60 [0] false true 10), Op.ins (mkF 0 0 50 [] false true 10),
   Op.next false, Op.next false]

/-- A concrete encoded frame for the decode-dispatcher witnesses. -/
def encFrame0 : EncFrame := ⟨42, 7, 1, ⟨255, 0, 0, 0, 0, 0, 0, 0, 0⟩, 5, none, [], true, 3⟩

/-- A concrete FrameInfo slot for the decode-dispatcher witnesses. -/
def slot0 : SlotInfo := ⟨20, 9, 1, ⟨255, 0, 0, 0, 0, 0, 0, 0, 0⟩, 5, none, [], 3⟩

/-- A concrete decoded frame for the decode-dispatcher witnesses. -/
def videoFrame0 : VideoFrameD := ⟨42, 0, none, [], 0, 0⟩

end Webrtc

/-! ## Theorems -/

namespace Webrtc

theorem fwdDiff16_self (p : Nat) : fwdDiff16 p p = 0 := by
  unfold fwdDiff16; omega

theorem fwdDiff32_self (t : Nat) : fwdDiff32 t t = 0 := by
  unfold fwdDiff32; omega

theorem aheadOf16_self (p : Nat) : aheadOf16 p p = false := by
  simp [aheadOf16, fwdDiff16_self]

theorem aheadOf32_self (t : Nat) : aheadOf32 t t = false := by
  simp [aheadOf32, fwdDiff32_self]

theorem aheadOf32_asymm (a b : Nat) (h : aheadOf32 a b = true) : aheadOf32 b a = false := by
  have ha : a % 4294967296 < 4294967296 := Nat.mod_lt _ (by norm_num)
  have hb : b % 4294967296 < 4294967296 := Nat.mod_lt _ (by norm_num)
  rw [Bool.eq_false_iff]
  simp only [aheadOf32, fwdDiff32, Bool.and_eq_true, decide_eq_true_eq, ne_eq, not_and,
    not_lt] at h ⊢
  omega

/-! ### Timestamp-map lemmas (decode dispatcher) -/

theorem tsMapPop_of_lookup_none (ts : Nat) :
    ∀ m : TsMap, tsMapLookup m ts = none → tsMapPop m ts = (none, m) := by
  intro m
  induction m with
  | nil => intro _; rfl
  | cons x xs ih =>
    intro h
    simp only [tsMapLookup, List.find?] at h
    cases hx : (x.1 == ts) with
    | true => rw [hx] at h; simp at h
    | false =>
      rw [hx] at h
      have h2 : tsMapLookup xs ts = none := by simpa [tsMapLookup] using h
      simp only [tsMapPop, hx, Bool.false_eq_true, if_false]
      rw [ih h2]

theorem tsMapLookup_tail_none (m : TsMap) (ts : Nat) (h : tsMapLookup m ts = none) :
    tsMapLookup m.tail ts = none := by
  cases m with
  | nil => exact h
  | cons x xs =>
    simp only [tsMapLookup, List.find?] at h ⊢
    cases hx : (x.1 == ts) with
    | true => rw [hx] at h; simp at h
    | false => rw [hx] at h; exact h

theorem tsMapPop_append_of_lookup_none (ts : Nat) (fi : SlotInfo) :
    ∀ m : TsMap, tsMapLookup m ts = none → tsMapPop (m ++ [(ts, fi)]) ts = (some fi, m) := by
  intro m
  induction m with
  | nil => simp [tsMapPop]
  | cons x xs ih =>
    intro h
    simp only [tsMapLookup, List.find?] at h
    cases hx : (x.1 == ts) with
    | true => rw [hx] at h; simp at h
    | false =>
      rw [hx] at h
      have h2 : tsMapLookup xs ts = none := by simpa [tsMapLookup] using h
      simp only [List.cons_append, tsMapPop, hx, Bool.false_eq_true, if_false]
      rw [List.append_eq, ih h2]

/-- C7: when the decoder callback delivers a frame whose RTP timestamp has no
slot in the FrameInfo map, `VCMDecodedFrameCallback::Decoded` returns without
invoking the user receive callback, without modifying the decoded frame, and
without updating the timing estimator (generic_decoder.cc lines 71–81). -/
theorem c7_orphan_callback_dropped (st : CBState) (img : VideoFrameD)
    (dt : Option Int) (qp : Option Nat) (now : Int)
    (h : tsMapLookup st.map img.timestamp = none) :
    vcmDecoded st img dt qp now = ⟨⟨st.map, st.ntpOffsetMs⟩, img, none, none, none⟩ := by
  unfold vcmDecoded
  rw [tsMapPop_of_lookup_none img.timestamp st.map h]

/-- Witness for C7 at a concrete state with an empty slot map. -/
theorem c7_witness :
    vcmDecoded ⟨[], 3⟩ videoFrame0 none none 100 = ⟨⟨[], 3⟩, videoFrame0, none, none, none⟩ :=
  c7_orphan_callback_dropped ⟨[], 3⟩ videoFrame0 none none 100 (by decide)

/-- C8: for a decoded frame whose FrameInfo slot is found,
`VCMDecodedFrameCallback::Decoded` sets `timestamp_us` to the slot's
`render_time_ms × 1000` (generic_decoder.cc lines 147–148), and when the
decoder supplied no decode time, the decode time reported to the timing
estimator is the current clock time minus the slot's decode start time
(lines 90–94). -/
theorem c8_render_time_and_decode_time (st : CBState) (img : VideoFrameD)
    (dt : Option Int) (qp : Option Nat) (now : Int) (fi : SlotInfo) (rest : TsMap)
    (h : tsMapPop st.map img.timestamp = (some fi, rest)) :
    (vcmDecoded st img dt qp now).frame.timestampUs = fi.renderTimeMs * 1000 ∧
    (dt = none →
      (vcmDecoded st img dt qp now).stopDecodeTimer = some (now - fi.decodeStartTimeMs, now)) := by
  unfold vcmDecoded
  rw [h]
  constructor
  · cases fi.colorSpace <;> rfl
  · intro hdt
    subst hdt
    cases fi.colorSpace <;> rfl

/-- Witness for C8 at a concrete slot map containing the frame's slot. -/
theorem c8_witness :
    (vcmDecoded ⟨[(42, slot0)], 3⟩ videoFrame0 none none 100).frame.timestampUs = 9 * 1000 ∧
    (vcmDecoded ⟨[(42, slot0)], 3⟩ videoFrame0 none none 100).stopDecodeTimer =
      some (100 - 20, 100) := by
  have h := c8_render_time_and_decode_time ⟨[(42, slot0)], 3⟩ videoFrame0 none none 100
    slot0 [] (by decide)
  exact ⟨h.1, h.2 rfl⟩

/-- C6 counterexample: the claim says `VCMGenericDecoder::Decode` returns OK
(0) when the decoder reports `WEBRTC_VIDEO_CODEC_NO_OUTPUT` (1); on the
source (generic_decoder.cc lines 238–242, `return ret;`) the call returns 1,
not 0, at this concrete input. -/
theorem c6_counterexample :
    (genericDecode ⟨⟨[], 0⟩, 0, 0⟩ encFrame0 100 codecNoOutput).2 ≠ codecOK := by decide

/-- C6 (amended): when the decoder returns `WEBRTC_VIDEO_CODEC_NO_OUTPUT`,
`VCMGenericDecoder::Decode` removes the frame's entry from the FrameInfo
timestamp map and returns the NoOutput code (1) — a non-error value — to its
caller, rather than OK (0) (generic_decoder.cc lines 238–242). -/
theorem c6_no_output_pops_and_returns_no_output (st : GDState) (f : EncFrame) (now : Int)
    (h : tsMapLookup st.cb.map f.timestamp = none) :
    (genericDecode st f now codecNoOutput).2 = codecNoOutput ∧
    tsMapLookup (genericDecode st f now codecNoOutput).1.cb.map f.timestamp = none := by
  have hone : ¬ (codecNoOutput < codecOK) := by decide
  have h1 : tsMapLookup (if kDecoderFrameMemoryLength ≤ st.cb.map.length
      then st.cb.map.tail else st.cb.map) f.timestamp = none := by
    split
    · exact tsMapLookup_tail_none st.cb.map f.timestamp h
    · exact h
  constructor
  · simp [genericDecode, hone]
  · simp only [genericDecode, hone, if_false, beq_self_eq_true, if_true]
    rw [tsMapAdd]
    rw [tsMapPop_append_of_lookup_none f.timestamp _ _ h1]
    exact h1

/-- Witness for C6's amended theorem at a concrete empty slot map. -/
theorem c6_witness :
    (genericDecode ⟨⟨[], 0⟩, 0, 0⟩ encFrame0 100 codecNoOutput).2 = codecNoOutput ∧
    tsMapLookup (genericDecode ⟨⟨[], 0⟩, 0, 0⟩ encFrame0 100 codecNoOutput).1.cb.map
      encFrame0.timestamp = none :=
  c6_no_output_pops_and_returns_no_output ⟨⟨[], 0⟩, 0, 0⟩ encFrame0 100 (by decide)

/-! ### Frame-buffer infrastructure lemmas -/

theorem foldl_wmin_mem (l : List Nat) :
    ∀ (a : Option Nat) (p : Nat), l.foldl wmin a = some p → p ∈ l ∨ a = some p := by
  induction l with
  | nil => intro a p h; exact Or.inr h
  | cons x xs ih =>
    intro a p h
    rcases ih (wmin a x) p h with h1 | h1
    · exact Or.inl (List.mem_cons_of_mem _ h1)
    · unfold wmin at h1
      cases a with
      | none =>
        cases h1
        exact Or.inl (List.mem_cons_self _ _)
      | some q =>
        have h1b : (if aheadOf16 q x = true then some x else some q) = some p := h1
        by_cases hb : aheadOf16 q x = true
        · rw [if_pos hb] at h1b
          cases h1b
          exact Or.inl (List.mem_cons_self _ _)
        · rw [if_neg hb] at h1b
          exact Or.inr h1b

theorem pickMin_mem (l : List Nat) (p : Nat) (h : pickMin l = some p) : p ∈ l := by
  rcases foldl_wmin_mem l none p h with h1 | h1
  · exact h1
  · cases h1

theorem cascadeOnce_map_f (d : List Nat) (s : List Entry) :
    (cascadeOnce d s).map (fun e => e.f) = s.map (fun e => e.f) := by
  unfold cascadeOnce
  rw [List.map_map]
  apply List.map_congr_left
  intro e _
  by_cases h : e.cont = true <;> simp [h]

theorem cascade_map_f (d : List Nat) :
    ∀ (n : Nat) (s : List Entry), (cascade d n s).map (fun e => e.f) = s.map (fun e => e.f) := by
  intro n
  induction n with
  | zero => intro s; rfl
  | succ k ih =>
    intro s
    simp only [cascade]
    split
    · rfl
    · rw [ih, cascadeOnce_map_f]

theorem map_pid_of_map_f {s1 s2 : List Entry}
    (h : s1.map (fun e => e.f) = s2.map (fun e => e.f)) : storePids s1 = storePids s2 := by
  have h2 := congrArg (List.map Frame.pid) h
  simpa [storePids, List.map_map, Function.comp] using h2

theorem any_through_map_f (q : Frame → Bool) :
    ∀ s : List Entry, (s.map (fun e => e.f)).any q = s.any (fun e => q e.f) := by
  intro s
  induction s with
  | nil => rfl
  | cons x xs ih => simp only [List.map_cons, List.any_cons, ih]

theorem any_of_map_f {s1 s2 : List Entry}
    (h : s1.map (fun e => e.f) = s2.map (fun e => e.f)) (q : Frame → Bool) :
    s1.any (fun e => q e.f) = s2.any (fun e => q e.f) := by
  rw [← any_through_map_f q s1, ← any_through_map_f q s2, h]

theorem storeInsert_pids (st : FB) (f : Frame) :
    storePids (storeInsert st f).1.store = storePids st.store ∨
    storePids (storeInsert st f).1.store = storePids st.store ++ [f.pid] := by
  unfold storeInsert
  split
  · exact Or.inl rfl
  · right
    simp only
    split
    · rw [map_pid_of_map_f (cascade_map_f st.decodedPids _ _)]
      simp [storePids]
    · simp [storePids]

theorem storeInsert_decoded (st : FB) (f : Frame) :
    (storeInsert st f).1.decodedPids = st.decodedPids := by
  unfold storeInsert
  split <;> rfl

theorem storeInsert_lastDecoded (st : FB) (f : Frame) :
    (storeInsert st f).1.lastDecoded = st.lastDecoded := by
  unfold storeInsert
  split <;> rfl

theorem storeInsert_renderLast (st : FB) (f : Frame) :
    (storeInsert st f).1.renderLast = st.renderLast := by
  unfold storeInsert
  split <;> rfl

theorem storeInsert_keyPresent (st : FB) (f : Frame) :
    keyPresent (storeInsert st f).1.store f.pid f.sl = true := by
  unfold storeInsert
  split
  · assumption
  · simp only
    unfold keyPresent
    have htail : (st.store ++ [(⟨f, contCond st.store st.decodedPids f⟩ : Entry)]).any
        (fun e => e.f.pid == f.pid && e.f.sl == f.sl) = true := by
      simp
    split
    · exact Eq.trans
        (any_of_map_f (cascade_map_f st.decodedPids _ _)
          (fun g => g.pid == f.pid && g.sl == f.sl)) htail
    · exact htail

theorem insertFrame_cases (st : FB) (f : Frame) :
    insertFrame st f = (st, -1) ∨ insertFrame st f = (st, lastContInt st.lastCont) ∨
    insertFrame st f = storeInsert st f ∨ insertFrame st f = storeInsert (clearFB st) f := by
  have hclear : ∀ st0 : FB, insertCapacity (clearFB st0) f = storeInsert (clearFB st0) f := by
    intro st0
    unfold insertCapacity
    have : ¬ (600 ≤ distinctPids (clearFB st0).store ∧
        pidPresent (clearFB st0).store f.pid = false) := by
      intro hc
      have := hc.1
      simp [clearFB, distinctPids] at this
    rw [if_neg this]
  have hcap : insertCapacity st f = (st, -1) ∨ insertCapacity st f = storeInsert st f ∨
      insertCapacity st f = storeInsert (clearFB st) f := by
    unfold insertCapacity
    split
    · split
      · right; right; rfl
      · left; rfl
    · right; left; rfl
  unfold insertFrame
  split
  · exact Or.inl rfl
  · split
    · split
      · split
        · rw [hclear st]
          exact Or.inr (Or.inr (Or.inr rfl))
        · exact Or.inr (Or.inl rfl)
      · split
        · exact Or.inr (Or.inl rfl)
        · rcases hcap with h | h | h
          · rw [h]; exact Or.inl rfl
          · rw [h]; exact Or.inr (Or.inr (Or.inl rfl))
          · rw [h]; exact Or.inr (Or.inr (Or.inr rfl))
    · rcases hcap with h | h | h
      · rw [h]; exact Or.inl rfl
      · rw [h]; exact Or.inr (Or.inr (Or.inl rfl))
      · rw [h]; exact Or.inr (Or.inr (Or.inr rfl))

theorem insertFrame_pids (st : FB) (f : Frame) :
    ∀ q ∈ storePids (insertFrame st f).1.store, q ∈ storePids st.store ∨ q = f.pid := by
  intro q hq
  rcases insertFrame_cases st f with h | h | h | h
  · rw [h] at hq; exact Or.inl hq
  · rw [h] at hq; exact Or.inl hq
  · rw [h] at hq
    rcases storeInsert_pids st f with h2 | h2
    · rw [h2] at hq; exact Or.inl hq
    · rw [h2] at hq
      rcases List.mem_append.1 hq with h3 | h3
      · exact Or.inl h3
      · exact Or.inr (List.mem_singleton.1 h3)
  · rw [h] at hq
    rcases storeInsert_pids (clearFB st) f with h2 | h2
    · rw [h2] at hq
      simp [clearFB, storePids] at hq
    · rw [h2] at hq
      have : storePids (clearFB st).store = [] := by simp [clearFB, storePids]
      rw [this, List.nil_append] at hq
      exact Or.inr (List.mem_singleton.1 hq)

theorem insertFrame_decoded (st : FB) (f : Frame) :
    (insertFrame st f).1.decodedPids = st.decodedPids ∨
    (insertFrame st f).1.decodedPids = [] := by
  rcases insertFrame_cases st f with h | h | h | h
  · rw [h]; exact Or.inl rfl
  · rw [h]; exact Or.inl rfl
  · rw [h, storeInsert_decoded]; exact Or.inl rfl
  · rw [h, storeInsert_decoded]; exact Or.inr rfl

theorem ready_refs_decoded (st : FB) (p : Nat) (h : readyPid st p = true) :
    ∀ r ∈ ((layersOf st.store p).map (fun e => e.f.refs)).flatten, r ∈ st.decodedPids := by
  intro r hr
  rcases List.mem_flatten.1 hr with ⟨lref, hl, hrl⟩
  rcases List.mem_map.1 hl with ⟨e, he, rfl⟩
  simp only [readyPid, Bool.and_eq_true] at h
  have h2 := List.all_eq_true.1 h.2 e he
  rw [Bool.and_eq_true] at h2
  have h3 := List.all_eq_true.1 h2.1 r hrl
  exact List.elem_iff.1 h3

theorem mem_decodable (st : FB) (p : Nat)
    (hp : p ∈ ((st.store.map (fun e => e.f.pid)).dedup.filter
      (fun p => readyPid st p && notStale st p))) :
    readyPid st p = true ∧ notStale st p = true ∧ p ∈ storePids st.store := by
  rcases List.mem_filter.1 hp with ⟨hmem, hcond⟩
  rw [Bool.and_eq_true] at hcond
  exact ⟨hcond.1, hcond.2, List.mem_dedup.1 hmem⟩

theorem storePids_filter_sub (s : List Entry) (q : Entry → Bool) :
    ∀ x ∈ storePids (s.filter q), x ∈ storePids s := by
  intro x hx
  rcases List.mem_map.1 hx with ⟨e, he, rfl⟩
  exact List.mem_map.2 ⟨e, (List.mem_filter.1 he).1, rfl⟩

theorem nextFrame_none (kf : Bool) (st st2 : FB) (h : nextFrame kf st = (st2, none)) :
    st2.decodedPids = st.decodedPids ∧ st2.lastDecoded = st.lastDecoded ∧
    st2.renderLast = st.renderLast ∧
    (∀ q ∈ storePids st2.store, q ∈ storePids st.store) := by
  cases kf with
  | false =>
    simp only [nextFrame, Bool.false_eq_true, if_false] at h
    split at h
    · rw [Prod.mk.injEq] at h
      obtain ⟨hst, -⟩ := h
      subst hst
      exact ⟨rfl, rfl, rfl, fun q hq => hq⟩
    · rw [Prod.mk.injEq] at h
      exact absurd h.2 (by simp)
  | true =>
    simp only [nextFrame, if_true] at h
    split at h
    · rw [Prod.mk.injEq] at h
      obtain ⟨hst, -⟩ := h
      subst hst
      exact ⟨rfl, rfl, rfl, storePids_filter_sub st.store _⟩
    · rw [Prod.mk.injEq] at h
      exact absurd h.2 (by simp)

theorem nextFrame_some (kf : Bool) (st st2 : FB) (sf : Superframe)
    (h : nextFrame kf st = (st2, some sf)) :
    readyPid st sf.pid = true ∧ notStale st sf.pid = true ∧
    sf.pid ∈ storePids st.store ∧
    sf.ts = pidTs st sf.pid ∧
    sf.refsAll = ((layersOf st.store sf.pid).map (fun e => e.f.refs)).flatten ∧
    sf.renderMs = (renderUpd st.renderLast sf.ts).2 ∧
    st2.decodedPids = st.decodedPids ++ [sf.pid] ∧
    st2.lastDecoded = some (sf.pid, sf.ts) ∧
    st2.renderLast = some (renderUpd st.renderLast sf.ts) ∧
    (∀ q ∈ storePids st2.store, q ∈ storePids st.store) := by
  cases kf with
  | false =>
    simp only [nextFrame, Bool.false_eq_true, if_false] at h
    split at h
    · rw [Prod.mk.injEq] at h
      exact absurd h.2 (by simp)
    · rename_i p heq
      rw [Prod.mk.injEq] at h
      obtain ⟨hst, hsf⟩ := h
      injection hsf with hsf
      subst hsf
      subst hst
      have hp := pickMin_mem _ _ heq
      have hd := mem_decodable st p hp
      refine ⟨hd.1, hd.2.1, hd.2.2, rfl, rfl, rfl, rfl, rfl, rfl, ?_⟩
      exact storePids_filter_sub st.store _
  | true =>
    simp only [nextFrame, if_true] at h
    split at h
    · rw [Prod.mk.injEq] at h
      exact absurd h.2 (by simp)
    · rename_i p heq
      rw [Prod.mk.injEq] at h
      obtain ⟨hst, hsf⟩ := h
      injection hsf with hsf
      subst hsf
      subst hst
      have hp := pickMin_mem _ _ heq
      have hp2 := (List.mem_filter.1 hp).1
      have hd := mem_decodable st p hp2
      refine ⟨hd.1, hd.2.1, hd.2.2, rfl, rfl, rfl, rfl, rfl, rfl, ?_⟩
      intro q hq
      exact storePids_filter_sub st.store _ q (storePids_filter_sub _ _ q hq)

theorem refClosed_runOps :
    ∀ (ops : List Op) (st : FB) (R : List Nat),
      (∀ x ∈ st.decodedPids, x ∈ R) → RefClosedFrom R (runOps st ops).2 := by
  intro ops
  induction ops with
  | nil => intro st R _; trivial
  | cons op rest ih =>
    intro st R hR
    cases op with
    | ins f =>
      simp only [runOps]
      apply ih
      rcases insertFrame_decoded st f with hd | hd <;> rw [hd]
      · exact hR
      · intro x hx
        cases hx
    | next kf =>
      simp only [runOps]
      cases hn : nextFrame kf st with
      | mk st2 r =>
        cases r with
        | none =>
          apply ih
          rw [(nextFrame_none kf st st2 hn).1]
          exact hR
        | some sf =>
          refine ⟨?_, ?_⟩
          · intro r hr
            obtain ⟨hready, -, -, -, hrefs, -⟩ := nextFrame_some kf st st2 sf hn
            rw [hrefs] at hr
            exact hR r (ready_refs_decoded st sf.pid hready r hr)
          · apply ih
            obtain ⟨-, -, -, -, -, -, hdec, -⟩ := nextFrame_some kf st st2 sf hn
            rw [hdec]
            intro x hx
            rcases List.mem_append.1 hx with h1 | h1
            · exact List.mem_append.2 (Or.inl (hR x h1))
            · exact List.mem_append.2 (Or.inr h1)

/-- C1: for every trace of inserts and `NextFrame` calls, every reference of
every delivered superframe was itself delivered by a prior `NextFrame` call;
in particular a frame whose references were never delivered (never inserted,
or dropped by a keyframe-required extraction) is never delivered
(spec.md I3, §8; tests `MissingFrame`, `DontUpdateOnUndecodableFrame`). -/
theorem c1_references_delivered_before (ops : List Op) :
    RefClosedFrom [] (runOps initFB ops).2 := by
  apply refClosed_runOps
  intro x hx
  cases hx

/-! ### Distinct-picture-id bound lemmas -/

theorem toFinsetCard_le_of_sub {l1 l2 : List Nat} (h : ∀ x ∈ l1, x ∈ l2) :
    l1.toFinset.card ≤ l2.toFinset.card := by
  apply Finset.card_le_card
  intro x hx
  rw [List.mem_toFinset] at hx ⊢
  exact h x hx

theorem distinct_eq_pids (s : List Entry) : distinctPids s = (storePids s).toFinset.card := rfl

theorem pidPresent_iff (s : List Entry) (p : Nat) :
    pidPresent s p = true ↔ p ∈ storePids s := by
  unfold pidPresent storePids
  rw [List.any_eq_true]
  constructor
  · rintro ⟨e, he, hef⟩
    exact List.mem_map.2 ⟨e, he, eq_of_beq hef⟩
  · intro hm
    rcases List.mem_map.1 hm with ⟨e, he, rfl⟩
    exact ⟨e, he, beq_self_eq_true _⟩

theorem storeInsert_distinct_le (st : FB) (f : Frame) :
    distinctPids (storeInsert st f).1.store ≤ distinctPids st.store + 1 := by
  rcases storeInsert_pids st f with h | h
  · rw [distinct_eq_pids, h, ← distinct_eq_pids]
    omega
  · rw [distinct_eq_pids, h, List.toFinset_append]
    calc ((storePids st.store).toFinset ∪ [f.pid].toFinset).card
        ≤ (storePids st.store).toFinset.card + [f.pid].toFinset.card :=
          Finset.card_union_le _ _
      _ ≤ distinctPids st.store + 1 := by
          rw [← distinct_eq_pids]
          simp

theorem storeInsert_distinct_present (st : FB) (f : Frame)
    (hp : f.pid ∈ storePids st.store) :
    distinctPids (storeInsert st f).1.store ≤ distinctPids st.store := by
  rcases storeInsert_pids st f with h | h
  · rw [distinct_eq_pids, h, ← distinct_eq_pids]
  · rw [distinct_eq_pids, h, List.toFinset_append]
    have he : [f.pid].toFinset ⊆ (storePids st.store).toFinset := by
      intro x hx
      simp only [List.toFinset_cons, List.toFinset_nil, insert_emptyc_eq,
        Finset.mem_singleton] at hx
      subst hx
      exact List.mem_toFinset.2 hp
    rw [Finset.union_eq_left.2 he, ← distinct_eq_pids]

theorem insertCapacity_clear (st : FB) (f : Frame) :
    insertCapacity (clearFB st) f = storeInsert (clearFB st) f := by
  unfold insertCapacity
  rw [if_neg]
  intro hc
  have := hc.1
  simp [clearFB, distinctPids] at this

theorem storeInsert_clear_distinct (st : FB) (f : Frame) :
    distinctPids (storeInsert (clearFB st) f).1.store ≤ 600 := by
  have h1 := storeInsert_distinct_le (clearFB st) f
  have h0 : distinctPids (clearFB st).store = 0 := by simp [clearFB, distinctPids]
  omega

theorem insertCapacity_distinct (st : FB) (f : Frame) (h : distinctPids st.store ≤ 600) :
    distinctPids (insertCapacity st f).1.store ≤ 600 := by
  unfold insertCapacity
  split
  · split
    · exact storeInsert_clear_distinct st f
    · exact h
  · rename_i hcond
    rcases Decidable.not_and_iff_or_not.1 hcond with hc | hc
    · have hlt : distinctPids st.store < 600 := by omega
      have := storeInsert_distinct_le st f
      omega
    · have hp : pidPresent st.store f.pid = true := by
        cases hb : pidPresent st.store f.pid with
        | false => exact absurd hb hc
        | true => rfl
      exact le_trans (storeInsert_distinct_present st f ((pidPresent_iff _ _).1 hp)) h

theorem insertFrame_distinct (st : FB) (f : Frame) (h : distinctPids st.store ≤ 600) :
    distinctPids (insertFrame st f).1.store ≤ 600 := by
  unfold insertFrame
  split
  · exact h
  · split
    · split
      · split
        · rw [insertCapacity_clear]
          exact storeInsert_clear_distinct st f
        · exact h
      · split
        · exact h
        · exact insertCapacity_distinct st f h
    · exact insertCapacity_distinct st f h

theorem runOps_distinct (ops : List Op) :
    ∀ st : FB, distinctPids st.store ≤ 600 → distinctPids (runOps st ops).1.store ≤ 600 := by
  induction ops with
  | nil => intro st h; exact h
  | cons op rest ih =>
    intro st h
    cases op with
    | ins f =>
      simp only [runOps]
      exact ih _ (insertFrame_distinct st f h)
    | next kf =>
      simp only [runOps]
      cases hn : nextFrame kf st with
      | mk st2 r =>
        have hsub : ∀ q ∈ storePids st2.store, q ∈ storePids st.store := by
          cases r with
          | none => exact (nextFrame_none kf st st2 hn).2.2.2
          | some sf =>
            exact (nextFrame_some kf st st2 sf hn).2.2.2.2.2.2.2.2.2
        have h2 : distinctPids st2.store ≤ 600 := by
          rw [distinct_eq_pids]
          exact le_trans (toFinsetCard_le_of_sub hsub) (by rw [← distinct_eq_pids]; exact h)
        cases r with
        | none => exact ih st2 h2
        | some sf => exact ih st2 h2

theorem contCond_keyframe (store : List Entry) (decoded : List Nat) (f : Frame)
    (h3 : f.refs = []) (h4 : f.interLayer = false) : contCond store decoded f = true := by
  simp [contCond, h3, h4]

theorem storeInsert_clear_keyframe (st : FB) (f : Frame)
    (h3 : f.refs = []) (h4 : f.interLayer = false) :
    storeInsert (clearFB st) f =
      ({ st with store := [⟨f, true⟩], decodedPids := [], lastDecoded := none,
                 lastCont := some f.pid }, (f.pid : Int)) := by
  have hc : contCond (clearFB st).store (clearFB st).decodedPids f = true :=
    contCond_keyframe _ _ f h3 h4
  simp only [storeInsert, keyPresent, clearFB, List.any_nil, Bool.false_eq_true, if_false,
    List.nil_append, hc, if_true, List.length_cons, List.length_nil]
  simp only [cascade, cascadeOnce, contCond, h3, h4, List.all_nil, Bool.not_false,
    Bool.true_or, List.map_cons, List.map_nil]
  simp [updLastCont, wmax, lastContInt, contCount]

theorem nextFrame_single_keyframe (st : FB) (f : Frame)
    (h3 : f.refs = []) (h4 : f.interLayer = false) (h5 : f.lastSpatial = true)
    (hs : st.store = [⟨f, true⟩]) (hd : st.decodedPids = []) (hl : st.lastDecoded = none) :
    (nextFrame false st).2 = some ⟨f.pid, f.ts, [f], f.refs,
      (renderUpd st.renderLast f.ts).2⟩ := by
  simp [nextFrame, hs, hd, hl, readyPid, notStale, layersOf, pidTs, isKeySuper, pickMin,
    wmin, sortBySl, sortedInsertSl, h3, h4, h5, List.filter]

/-- C3: (a) along every trace of operations the store never holds more than
600 distinct picture ids; (b) a non-keyframe insert that would open a new
picture id in a full store — and is not already rejected for other reasons —
fails with −1 and leaves the buffer unchanged; (c) a keyframe insert into a
full store clears the store, succeeds (returning its own picture id, which is
now the last continuous one), and a subsequent `NextFrame` returns that
keyframe (spec.md I4, scenario S3, test `KeyframeClearsFullBuffer`). -/
theorem c3_capacity_bound :
    (∀ ops : List Op, distinctPids (runOps initFB ops).1.store ≤ 600) ∧
    (∀ (st : FB) (f : Frame), validRefs f = true → st.lastDecoded = none →
      600 ≤ distinctPids st.store → pidPresent st.store f.pid = false →
      f.refs.isEmpty = false → insertFrame st f = (st, -1)) ∧
    (∀ (st : FB) (f : Frame), st.lastDecoded = none →
      600 ≤ distinctPids st.store → pidPresent st.store f.pid = false →
      f.refs = [] → f.interLayer = false → f.lastSpatial = true →
      (insertFrame st f).2 = (f.pid : Int) ∧
      (insertFrame st f).1.store = [⟨f, true⟩] ∧
      ((nextFrame false (insertFrame st f).1).2.map (fun sf => sf.pid)) = some f.pid) := by
  refine ⟨?_, ?_, ?_⟩
  · intro ops
    exact runOps_distinct ops initFB (by simp [initFB, distinctPids])
  · intro st f hv h0 h1 h2 hk
    have hvn : ¬ validRefs f = false := by rw [hv]; simp
    have hkn : ¬ f.refs.isEmpty = true := by rw [hk]; simp
    simp only [insertFrame, hvn, if_false, h0, insertCapacity, h1, h2, and_self, if_true,
      hkn, hv, hk]
    simp
  · intro st f h0 h1 h2 h3 h4 h5
    have hv : validRefs f = true := by simp [validRefs, h3]
    have hvn : ¬ validRefs f = false := by rw [hv]; simp
    have hkey : f.refs.isEmpty = true := by rw [h3]; rfl
    have hins : insertFrame st f = storeInsert (clearFB st) f := by
      simp only [insertFrame, hvn, if_false, h0, insertCapacity, h1, h2, and_self, if_true,
        hkey, hv]
      simp
    rw [hins, storeInsert_clear_keyframe st f h3 h4]
    refine ⟨rfl, rfl, ?_⟩
    rw [nextFrame_single_keyframe _ f h3 h4 h5 rfl rfl rfl]
    rfl

theorem fullStore_map_pid :
    storePids fullStore = (List.range 600).map (fun i => i + 1) := by
  unfold storePids fullStore mkF
  rw [List.map_map]
  apply List.map_congr_left
  intro i _
  rfl

theorem distinct_fullStore : distinctPids fullStore = 600 := by
  rw [distinct_eq_pids, fullStore_map_pid, List.toFinset_card_of_nodup]
  · simp
  · exact List.Nodup.map (fun a b h => by omega) (List.nodup_range 600)

theorem pidPresent_fullStore : pidPresent fullStore 601 = false := by
  cases hb : pidPresent fullStore 601 with
  | false => rfl
  | true =>
    exfalso
    have := (pidPresent_iff _ _).1 hb
    rw [fullStore_map_pid] at this
    rcases List.mem_map.1 this with ⟨i, hi, he⟩
    rw [List.mem_range] at hi
    omega

set_option maxRecDepth 40000 in
/-- Witness for C3 at the concrete full store of scenario S3: a chained delta
frame is rejected with −1, while a keyframe insert returns its own picture id
and is delivered by the following `NextFrame`. -/
theorem c3_witness :
    distinctPids (runOps initFB []).1.store ≤ 600 ∧
    insertFrame fullState (mkF 601 0 540900 [600] false true 10) = (fullState, -1) ∧
    (insertFrame fullState (mkF 601 0 540900 [] false true 10)).2 = (601 : Int) ∧
    ((nextFrame false (insertFrame fullState (mkF 601 0 540900 [] false true 10)).1).2.map
      (fun sf => sf.pid)) = some 601 := by
  have hfull : 600 ≤ distinctPids fullState.store := by
    show 600 ≤ distinctPids fullStore
    rw [distinct_fullStore]
  have hpid : pidPresent fullState.store 601 = false := pidPresent_fullStore
  refine ⟨c3_capacity_bound.1 [], ?_, ?_, ?_⟩
  · exact c3_capacity_bound.2.1 fullState (mkF 601 0 540900 [600] false true 10)
      (by decide) rfl hfull hpid (by decide)
  · exact (c3_capacity_bound.2.2 fullState (mkF 601 0 540900 [] false true 10)
      rfl hfull hpid rfl rfl rfl).1
  · exact (c3_capacity_bound.2.2 fullState (mkF 601 0 540900 [] false true 10)
      rfl hfull hpid rfl rfl rfl).2.2

theorem insertFrame_stale_unchanged (st : FB) (f : Frame) (p t : Nat)
    (h0 : st.lastDecoded = some (p, t)) (h : aheadOf32 t f.ts = true) :
    (insertFrame st f).1 = st := by
  unfold insertFrame
  split
  · rfl
  · rw [h0]
    simp [aheadOf32_asymm t f.ts h, h]

theorem mem_insPids : ∀ (ops : List Op) (x : Nat), x ∈ insPids ops →
    ∃ g : Frame, Op.ins g ∈ ops ∧ g.pid = x := by
  intro ops
  induction ops with
  | nil => intro x hx; cases hx
  | cons op rest ih =>
    intro x hx
    cases op with
    | ins f =>
      simp only [insPids] at hx
      rcases List.mem_cons.1 hx with h1 | h1
      · exact ⟨f, List.mem_cons_self _ _, h1.symm⟩
      · rcases ih x h1 with ⟨g, hg, he⟩
        exact ⟨g, List.mem_cons_of_mem _ hg, he⟩
    | next kf =>
      simp only [insPids] at hx
      rcases ih x hx with ⟨g, hg, he⟩
      exact ⟨g, List.mem_cons_of_mem _ hg, he⟩

theorem runOps_returned_pids :
    ∀ (ops : List Op) (st : FB) (sf : Superframe), sf ∈ (runOps st ops).2 →
      sf.pid ∈ storePids st.store ∨ sf.pid ∈ insPids ops := by
  intro ops
  induction ops with
  | nil =>
    intro st sf h
    simp only [runOps] at h
    cases h
  | cons op rest ih =>
    intro st sf h
    cases op with
    | ins f =>
      simp only [runOps] at h
      rcases ih _ sf h with h1 | h1
      · rcases insertFrame_pids st f sf.pid h1 with h2 | h2
        · exact Or.inl h2
        · right
          simp [insPids, h2]
      · right
        simp only [insPids]
        exact List.mem_cons_of_mem _ h1
    | next kf =>
      simp only [runOps] at h
      cases hn : nextFrame kf st with
      | mk st2 r =>
        rw [hn] at h
        cases r with
        | none =>
          rcases ih st2 sf h with h1 | h1
          · exact Or.inl ((nextFrame_none kf st st2 hn).2.2.2 _ h1)
          · right
            simpa [insPids] using h1
        | some sf0 =>
          simp only at h
          rcases List.mem_cons.1 h with h1 | h1
          · rw [h1]
            exact Or.inl (nextFrame_some kf st st2 sf0 hn).2.2.1
          · rcases ih st2 sf h1 with h2 | h2
            · exact Or.inl ((nextFrame_some kf st st2 sf0 hn).2.2.2.2.2.2.2.2.2 _ h2)
            · right
              simpa [insPids] using h2

theorem renderUpd_fst (r : Option (Nat × Int)) (ts : Nat) : (renderUpd r ts).1 = ts := by
  cases r with
  | none => rfl
  | some lt =>
    simp only [renderUpd]
    split <;> rfl

/-- C5 (spec.md I5, test `DontDecodeOlderTimestamp`): an insert whose picture
id is wrap-aware older than the last decoded picture id is accepted when its
RTP timestamp is strictly newer than the last decoded frame's (the frame ends
up stored); an insert whose RTP timestamp is wrap-aware older than the last
decoded frame's timestamp is rejected — the buffer is unchanged — and, as
long as no other frame with the same picture id is inserted, no later
`NextFrame` ever returns a frame with the rejected picture id. -/
theorem c5_timestamp_acceptance :
    (∀ (st : FB) (f : Frame) (p t : Nat),
      st.lastDecoded = some (p, t) → validRefs f = true →
      aheadOf16 f.pid p = false → aheadOf32 f.ts t = true →
      keyPresent (insertFrame st f).1.store f.pid f.sl = true) ∧
    (∀ (st : FB) (f : Frame) (p t : Nat),
      st.lastDecoded = some (p, t) → aheadOf32 t f.ts = true →
      (insertFrame st f).1 = st) ∧
    (∀ (st : FB) (f : Frame) (p t : Nat) (ops : List Op),
      st.lastDecoded = some (p, t) → aheadOf32 t f.ts = true →
      pidPresent st.store f.pid = false →
      (∀ g : Frame, Op.ins g ∈ ops → g.pid ≠ f.pid) →
      ∀ sf ∈ (runOps (insertFrame st f).1 ops).2, sf.pid ≠ f.pid) := by
  refine ⟨?_, ?_, ?_⟩
  · intro st f p t h0 hv h1 h2
    have hvn : ¬ validRefs f = false := by rw [hv]; simp
    simp only [insertFrame, hvn, if_false, h0, h1, h2, if_true, if_pos rfl]
    rw [insertCapacity_clear]
    exact storeInsert_keyPresent (clearFB st) f
  · intro st f p t h0 h
    exact insertFrame_stale_unchanged st f p t h0 h
  · intro st f p t ops h0 h hpid hno sf hsf
    rw [insertFrame_stale_unchanged st f p t h0 h] at hsf
    rcases runOps_returned_pids ops st sf hsf with h1 | h1
    · intro he
      rw [he] at h1
      exact absurd ((pidPresent_iff _ _).2 h1) (by rw [hpid]; simp)
    · rcases mem_insPids ops sf.pid h1 with ⟨g, hg, he⟩
      intro heq
      exact hno g hg (by rw [he, heq])

/-- Witness for C5: after frame 2 (timestamp 90) was decoded, frame 1 with
the newer timestamp 270 is accepted into the store, while frame 3 with the
older timestamp 30 leaves the buffer unchanged and is never delivered. -/
theorem c5_witness :
    keyPresent (insertFrame (⟨[], [2], some (2, 90), some 2, some (90, 0)⟩ : FB)
      (mkF 1 0 270 [] false true 10)).1.store 1 0 = true ∧
    (insertFrame (⟨[], [2], some (2, 90), some 2, some (90, 0)⟩ : FB)
      (mkF 3 0 30 [] false true 10)).1 = ⟨[], [2], some (2, 90), some 2, some (90, 0)⟩ ∧
    (∀ sf ∈ (runOps (insertFrame (⟨[], [2], some (2, 90), some 2, some (90, 0)⟩ : FB)
      (mkF 3 0 30 [] false true 10)).1 [Op.next false]).2, sf.pid ≠ 3) := by
  refine ⟨?_, ?_, ?_⟩
  · exact c5_timestamp_acceptance.1 _ (mkF 1 0 270 [] false true 10) 2 90 rfl (by decide)
      (by decide) (by decide)
  · exact c5_timestamp_acceptance.2.1 _ (mkF 3 0 30 [] false true 10) 2 90 rfl (by decide)
  · exact c5_timestamp_acceptance.2.2 _ (mkF 3 0 30 [] false true 10) 2 90 [Op.next false]
      rfl (by decide) (by decide) (by intro g hg; simp at hg)

/-- C2 counterexample: the claim says that once a frame has been returned no
frame with a wrap-aware earlier picture id is ever returned; in the
`PictureIdJumpBack` trace the buffer returns picture id 2 and then picture
id 1 (a jump-back keyframe with a newer timestamp), although 2 is wrap-aware
ahead of 1. -/
theorem c2_counterexample :
    (runOps initFB jumpBackOps).2.map (fun sf => sf.pid) = [2, 1] ∧
    aheadOf16 2 1 = true := by decide

/-- C2 (amended): consecutive `NextFrame` returns are monotone in render time
and wrap-aware RTP timestamp — from any state whose decode history is intact
(a last decoded frame exists and anchors the render unwrapper), the next
delivered superframe has a wrap-aware newer-or-equal RTP timestamp and a
greater-or-equal render time.  The picture-id half of the original claim is
false (see the counterexample): a jump-back keyframe with a newer timestamp
is delivered though its picture id is wrap-aware older. -/
theorem c2_monotone_render_time (kf : Bool) (st st2 : FB) (sf : Superframe) (p t : Nat)
    (m : Int) (h0 : st.lastDecoded = some (p, t)) (h1 : st.renderLast = some (t, m))
    (h : nextFrame kf st = (st2, some sf)) :
    (aheadOf32 sf.ts t || sf.ts == t) = true ∧ m ≤ sf.renderMs ∧
    st2.renderLast = some (sf.ts, sf.renderMs) := by
  obtain ⟨-, hstale, -, hts, -, hrender, -, -, hrl, -⟩ := nextFrame_some kf st st2 sf h
  have hns : (aheadOf32 sf.ts t || sf.ts == t) = true := by
    unfold notStale at hstale
    rw [h0] at hstale
    rw [hts]
    exact hstale
  refine ⟨hns, ?_, ?_⟩
  · rw [hrender, h1]
    unfold renderUpd
    cases hb : aheadOf32 sf.ts t with
    | true =>
      simp only [hb, if_true]
      have : (0 : Int) ≤ ((fwdDiff32 t sf.ts / 90 : Nat) : Int) := Int.natCast_nonneg _
      omega
    | false =>
      have heq : sf.ts = t := by
        rw [hb] at hns
        simpa using hns
      simp only [hb, Bool.false_eq_true, if_false, heq, fwdDiff32_self]
      simp
  · rcases hru : renderUpd st.renderLast sf.ts with ⟨a, b⟩
    have ha : a = sf.ts := by
      have h2 := renderUpd_fst st.renderLast sf.ts
      rw [hru] at h2
      exact h2
    rw [hrl, hru, hrender, hru, ha]

/-- Witness for C2's amended theorem: from a state that has decoded frame 5
at timestamp 90 with render clock at 7 ms, the stored keyframe 6 at
timestamp 180 is delivered with a newer timestamp and render time 8 ≥ 7. -/
theorem c2_witness :
    (aheadOf32 180 90 || (180 : Nat) == 90) = true ∧ (7 : Int) ≤ 8 ∧
    (⟨[], [5, 6], some (6, 180), some 6, some (180, 8)⟩ : FB).renderLast = some (180, 8) := by
  have h := c2_monotone_render_time false
    ⟨[⟨mkF 6 0 180 [] false true 10, true⟩], [5], some (5, 90), some 6, some (90, 7)⟩
    ⟨[], [5, 6], some (6, 180), some 6, some (180, 8)⟩
    ⟨6, 180, [mkF 6 0 180 [] false true 10], [], 8⟩ 5 90 7 rfl rfl (by decide)
  exact ⟨h.1, h.2.1, h.2.2⟩

/-- C4 (scenario S4, test `CombineFramesToSuperframe`): after inserting
spatial layers `(pid, sl=0, size=S, last=false)` and `(pid, sl=1, size=2S,
last=true, inter_layer_predicted=true)`, one `NextFrame` returns a single
superframe whose payload is the layers concatenated in ascending spatial
order with total size `3S`, whose spatial index is 1, and whose per-layer
sizes are `S` and `2S`; a second `NextFrame` returns nothing. -/
theorem c4_superframe_assembly (pid ts S : Nat) :
    ((nextFrame false (insertFrame (insertFrame initFB (s4f0 pid ts S)).1
        (s4f1 pid ts S)).1).2.map
      (fun sf => (sf.pid, sf.totalSize, sf.spatialIndex, sf.layerSize 0, sf.layerSize 1)))
      = some (pid, 3 * S, 1, some S, some (2 * S)) ∧
    (nextFrame false (nextFrame false (insertFrame (insertFrame initFB (s4f0 pid ts S)).1
        (s4f1 pid ts S)).1).1).2 = none := by
  have h1 : insertFrame initFB (s4f0 pid ts S) =
      (⟨[⟨s4f0 pid ts S, true⟩], [], none, some pid, none⟩, (pid : Int)) := rfl
  have h2 : insertFrame (⟨[⟨s4f0 pid ts S, true⟩], [], none, some pid, none⟩ : FB)
      (s4f1 pid ts S) =
      (⟨[⟨s4f0 pid ts S, true⟩, ⟨s4f1 pid ts S, true⟩], [], none, some pid, none⟩,
        (pid : Int)) := by
    simp [insertFrame, validRefs, insertCapacity, distinctPids, storeInsert, keyPresent,
      s4f0, s4f1, mkF, contCond, cascade, cascadeOnce, contCount, updLastCont, wmax,
      aheadOf16_self, lastContInt, List.filter]
  have h3 : nextFrame false
      (⟨[⟨s4f0 pid ts S, true⟩, ⟨s4f1 pid ts S, true⟩], [], none, some pid, none⟩ : FB) =
      (⟨[], [pid], some (pid, ts), some pid, some (ts, 0)⟩,
        some ⟨pid, ts, [s4f0 pid ts S, s4f1 pid ts S], [], 0⟩) := by
    simp [nextFrame, readyPid, notStale, layersOf, pidTs, isKeySuper, pickMin, wmin,
      sortBySl, sortedInsertSl, renderUpd, s4f0, s4f1, mkF, List.filter,
      List.dedup_cons_of_mem]
  rw [h1, h2, h3]
  refine ⟨?_, rfl⟩
  simp [Superframe.totalSize, Superframe.spatialIndex, Superframe.layerSize, s4f0, s4f1,
    mkF, List.find?]
  omega

/-- C9: with an RTT of 200 ms and three retransmission-delayed arrivals, the
jitter-buffer target strictly exceeds 200 ms under protection mode `Nack`,
while the same sequence leaves it strictly below 200 ms under `NackFec`
(spec.md §4.1 `UpdateRtt`, scenario S6). -/
theorem c9_protection_mode_rtt :
    200 < jitterTarget (protScenario ProtMode.nack) ∧
    jitterTarget (protScenario ProtMode.nackFec) < 200 := by decide

/-- C10: `InsertFrame` returns −1 also for successfully stored frames: the
delta frame referencing a missing frame is retained in the store although its
insert returned −1, and after its reference arrives both frames are delivered
— so −1 does not imply rejection (tests `NoContinuousFrame`,
`LastContinuousFrameSingleLayer`). -/
theorem c10_minus_one_not_rejection :
    (insertFrame initFB (mkF 1 0 60 [0] false true 10)).2 = -1 ∧
    pidPresent (insertFrame initFB (mkF 1 0 60 [0] false true 10)).1.store 1 = true ∧
    (runOps initFB lateRefOps).2.map (fun sf => sf.pid) = [0, 1] := by decide

end Webrtc
